import Mathlib

/-!
Shallow embedding of the DicomWeb data source
(`src/extensions/default/src/DicomWebDataSource/index.js`) of the
rapid-dicom-viewer repository, together with proofs settling the frozen
claims about its retrieval-and-caching pipeline.

The embedding models the externally observable behaviour of the module as
pure functions producing explicit event traces:
* transport calls (study-metadata listing, QIDO search, bulk-data retrieve,
  store) are trace events carrying the headers the client held when the
  call was issued;
* cache commits (`DicomMetadataStore.addSeriesMetadata`,
  `DicomMetadataStore.addInstances`), metadata-provider registration
  (`metadataProvider.addImageIdToUIDs`) and the `study.isLoaded = true`
  write are trace events as well;
* promise settlement in the lazy strategy is modelled by passing the list
  of per-series outcomes (in settlement order) as an explicit parameter.
-/

namespace DicomWebDataSource

/-- Authorization headers, modelled as an opaque token. -/
abbrev Headers := String

/-- A DICOMweb transport client; the only state the source mutates on it is
its `headers` field (`_qidoDicomWebClient.headers = headers`). -/
structure Client where
  headers : Option Headers
deriving Repr, DecidableEq

/-- The `if (headers) { client.headers = headers }` pattern that precedes
every query / retrieve / store entry point in the source. -/
def applyAuthHeaders (providerHeaders : Option Headers) (c : Client) : Client :=
  match providerHeaders with
  | some h => { c with headers := some h }
  | none => c

/-- The slice of the data-source configuration the claims depend on. -/
structure Config where
  enableStudyLazyLoad : Bool
  wadoRoot : String
deriving Repr, DecidableEq

/-- Modelled from the spec: the image-identifier synthesizer
(`src/.../utils/getImageId.js` is not under `src/`). Per spec section 4.5 an
identifier is deterministically computed from (instance identifier, optional
frame number, transport configuration), with identical inputs yielding the
identical identifier and distinct (instance, frame) pairs never colliding. -/
structure ImageId where
  configRoot : String
  sopInstanceUID : String
  frame : Option Int
deriving Repr, DecidableEq

/-- Modelled from the spec: `getImageId({instance, frame, config})`. -/
def getImageId (cfg : Config) (sopInstanceUID : String) (frame : Option Int) : ImageId :=
  { configRoot := cfg.wadoRoot, sopInstanceUID := sopInstanceUID, frame := frame }

/-- A naturalized attribute value as inspected by `addRetrieveBulkData`:
it may carry a `BulkDataURI` reference and/or an inline `Value`; the
`retrieveAttached` flag records whether the deferred accessor closure was
attached onto it. -/
structure AttrVal where
  BulkDataURI : Option String
  Value : Option String
  retrieveAttached : Bool := false
deriving Repr, DecidableEq

/-- A naturalized instance record (output of dcmjs `naturalizeDataset`),
restricted to the fields the source reads or writes. -/
structure NaturalizedInstance where
  StudyInstanceUID : Option String
  StudyDescription : Option String := none
  SeriesInstanceUID : String
  SeriesDescription : Option String := none
  SeriesNumber : Option Int := none
  SeriesTime : Option String := none
  SOPClassUID : Option String := none
  ProtocolName : Option String := none
  Modality : Option String := none
  SOPInstanceUID : String
  NumberOfFrames : Option Nat := none
  attrs : List (String × AttrVal) := []
  imageId : Option ImageId := none
deriving Repr, DecidableEq

/-- A series summary record as committed by `addSeriesMetadata`. -/
structure SeriesSummary where
  StudyInstanceUID : Option String
  StudyDescription : Option String := none
  SeriesInstanceUID : String
  SeriesDescription : Option String := none
  SeriesNumber : Option Int := none
  SeriesTime : Option String := none
  SOPClassUID : Option String := none
  ProtocolName : Option String := none
  Modality : Option String := none
deriving Repr, DecidableEq

/-- The UID triple registered with `metadataProvider.addImageIdToUIDs`. -/
structure UIDTriple where
  StudyInstanceUID : String
  SeriesInstanceUID : String
  SOPInstanceUID : String
deriving Repr, DecidableEq

/-- Observable events of a run: transport calls (carrying the headers the
client held when the call was issued), cache commits, metadata-provider
registrations, and the `study.isLoaded = true` write. -/
inductive Event where
  | retrieveStudyMetadataEvt (headers : Option Headers) (studyInstanceUID : String)
      (enableStudyLazyLoad : Bool)
  | qidoSearchEvt (headers : Option Headers) (studyInstanceUid : Option String)
      (queryParameters : Option String)
  | retrieveBulkDataEvt (headers : Option Headers) (bulkDataURI : String)
      (studyInstanceUID : Option String)
  | storeInstancesEvt (headers : Option Headers)
  | addImageIdToUIDsEvt (imageId : ImageId) (uids : UIDTriple)
  | addSeriesMetadataEvt (summaries : List SeriesSummary) (madeInClient : Bool)
  | addInstancesEvt (instances : List NaturalizedInstance) (madeInClient : Bool)
  | setLoadedEvt (studyInstanceUID : String)
deriving Repr, DecidableEq

/-- Transport (network I/O) events, as opposed to cache/provider writes. -/
def Event.isTransport : Event → Bool
  | .retrieveStudyMetadataEvt _ _ _ => true
  | .qidoSearchEvt _ _ _ => true
  | .retrieveBulkDataEvt _ _ _ => true
  | .storeInstancesEvt _ => true
  | _ => false

/-- The payloads of the `addSeriesMetadata` commits of a trace, in order. -/
def committedSummaryBatches (tr : List Event) : List (List SeriesSummary) :=
  tr.filterMap fun e =>
    match e with
    | .addSeriesMetadataEvt l _ => some l
    | _ => none

/-- The payloads of the `addInstances` commits of a trace, in order. -/
def committedInstanceBatches (tr : List Event) : List (List NaturalizedInstance) :=
  tr.filterMap fun e =>
    match e with
    | .addInstancesEvt l _ => some l
    | _ => none

/-- All instance records committed over a trace. -/
def committedInstances (tr : List Event) : List NaturalizedInstance :=
  (committedInstanceBatches tr).flatten

/-- The headers carried by the bulk-data retrieve calls of a trace. -/
def bulkCallHeaders (tr : List Event) : List (Option Headers) :=
  tr.filterMap fun e =>
    match e with
    | .retrieveBulkDataEvt h _ _ => some h
    | _ => none

/-- Number of underlying bulk-data retrieve calls issued over a trace. -/
def bulkCallCount (tr : List Event) : Nat := (bulkCallHeaders tr).length

/-!
### Bulk Data Resolver (`addRetrieveBulkData`, lines 405-435)

`addRetrieveBulkData` naturalizes an instance and, for every attribute
value that carries a `BulkDataURI` and no inline `Value`, attaches a
zero-argument `retrieveBulkData` closure. The closure, each time it is
invoked, builds an options object and calls
`_qidoDicomWebClient.retrieveBulkData(options)`, then writes
`value.Value = (val && val[0]) || undefined` and returns that value.
-/

/-- `addRetrieveBulkData` (lazy path): naturalize, then attach the deferred
accessor to every value with `value.BulkDataURI && !value.Value`. The
attachment is recorded in the `retrieveAttached` flag. `naturalizeDataset`
(external dcmjs) is a parameter. -/
def addRetrieveBulkData {W : Type} (naturalizeDataset : W → NaturalizedInstance)
    (inst : W) : NaturalizedInstance :=
  let naturalized := naturalizeDataset inst
  { naturalized with
    attrs := naturalized.attrs.map fun kv =>
      if kv.2.BulkDataURI.isSome && kv.2.Value.isNone then
        (kv.1, { kv.2 with retrieveAttached := true })
      else kv }

/-- JS `(val && val[0]) || undefined`: first element of the response
envelope, coalescing a falsy element (missing, or the empty string) to
`undefined`. -/
def jsFirstOrUndefined : List String → Option String
  | [] => none
  | h :: _ => if h = "" then none else some h

/-- The options object built inside the attached `retrieveBulkData`
closure. -/
structure BulkCallOptions where
  multipart : Bool
  BulkDataURI : String
  StudyInstanceUID : Option String
deriving Repr, DecidableEq

/-- One invocation of the attached `retrieveBulkData` closure
(lines 413-431). `server` models the transport response to
`_qidoDicomWebClient.retrieveBulkData`; the invocation always issues the
underlying call, then stores the first response element on the attribute
record and returns it. The result is the updated attribute record, the
returned value, and the trace of transport calls issued. -/
def invokeRetrieveBulkData (server : BulkCallOptions → List String)
    (qido : Client) (naturalizedStudyInstanceUID : Option String)
    (value : AttrVal) : AttrVal × Option String × List Event :=
  let options : BulkCallOptions :=
    { multipart := false
      BulkDataURI := value.BulkDataURI.getD ""
      StudyInstanceUID := naturalizedStudyInstanceUID }
  let val := server options
  let ret := jsFirstOrUndefined val
  ({ value with Value := ret }, ret,
    [Event.retrieveBulkDataEvt qido.headers options.BulkDataURI options.StudyInstanceUID])

/-- Two sequential invocations of the same attached accessor, the second
after the first has resolved: returns the final attribute record, the two
returned values, and the combined transport trace. -/
def invokeRetrieveBulkDataTwice (server : BulkCallOptions → List String)
    (qido : Client) (naturalizedStudyInstanceUID : Option String)
    (value : AttrVal) :
    AttrVal × Option String × Option String × List Event :=
  let r1 := invokeRetrieveBulkData server qido naturalizedStudyInstanceUID value
  let r2 := invokeRetrieveBulkData server qido naturalizedStudyInstanceUID r1.1
  (r2.1, r1.2.1, r2.2.1, r1.2.2 ++ r2.2.2)

/-- Following the spec's words (refinement target, not the source): a
deferred bulk-data call that re-reads the authorization header from the
provider at call time and applies it to the transport client before the
call is issued. -/
def invokeRetrieveBulkDataSpecRefreshed (providerHeaders : Option Headers)
    (server : BulkCallOptions → List String) (qido : Client)
    (naturalizedStudyInstanceUID : Option String) (value : AttrVal) :
    AttrVal × Option String × List Event :=
  invokeRetrieveBulkData server (applyAuthHeaders providerHeaders qido)
    naturalizedStudyInstanceUID value

/-!
### Query and store operations (lines 154-213, 272-301)

Each entry point re-reads the authorization header from
`userAuthenticationService.getAuthorizationHeader()` and, when truthy,
assigns it to the relevant client's `headers` before issuing the call.
-/

/-- `query.studies.search` (lines 157-177): refresh the QIDO client's
headers, then issue the QIDO search with the mapped parameters. -/
def queryStudiesSearch (providerHeaders : Option Headers) (qido : Client)
    (mappedParams : Option String) : Client × List Event :=
  let qido := applyAuthHeaders providerHeaders qido
  (qido, [Event.qidoSearchEvt qido.headers none mappedParams])

/-- `query.series.search` (lines 182-194): refresh the QIDO client's
headers, then issue `seriesInStudy`. -/
def querySeriesSearch (providerHeaders : Option Headers) (qido : Client)
    (studyInstanceUid : String) : Client × List Event :=
  let qido := applyAuthHeaders providerHeaders qido
  (qido, [Event.qidoSearchEvt qido.headers (some studyInstanceUid) none])

/-- `query.instances.search` (lines 197-212): refresh the QIDO client's
headers, issue the QIDO search — and return nothing (the JS function body
has no `return` statement, so the call evaluates to `undefined`, modelled
as `none`). -/
def queryInstancesSearch (providerHeaders : Option Headers) (qido : Client)
    (studyInstanceUid : String) (queryParameters : Option String) :
    Client × List Event × Option (List SeriesSummary) :=
  let qido := applyAuthHeaders providerHeaders qido
  (qido,
    [Event.qidoSearchEvt qido.headers (some studyInstanceUid) queryParameters],
    none)

/-- `store.dicom` (lines 273-301): refresh the WADO client's headers, then
issue `storeInstances`. -/
def storeDicom (providerHeaders : Option Headers) (wado : Client) :
    Client × List Event :=
  let wado := applyAuthHeaders providerHeaders wado
  (wado, [Event.storeInstancesEvt wado.headers])

/-!
### Eager (synchronous) strategy (`_retrieveSeriesMetadataSync`, lines 303-374)

`retrieveStudyMetadata` delivers the whole study's instance dictionaries
(or rejects, in which case the `await` rethrows before any commit). The
`forEach` over the naturalized instances builds two insertion-ordered
objects keyed by `SeriesInstanceUID` — `seriesSummaryMetadata` (summary
from the first instance of each series) and `instancesPerSeries` — while
assigning `instance.imageId` and registering the id with the metadata
provider. Only afterwards are `addSeriesMetadata` and, per series key,
`addInstances` called.
-/

/-- The per-series summary object built from the first instance of a
series (lines 332-342). -/
def summaryOfInstance (inst : NaturalizedInstance) : SeriesSummary :=
  { StudyInstanceUID := inst.StudyInstanceUID
    StudyDescription := inst.StudyDescription
    SeriesInstanceUID := inst.SeriesInstanceUID
    SeriesDescription := inst.SeriesDescription
    SeriesNumber := inst.SeriesNumber
    SeriesTime := inst.SeriesTime
    SOPClassUID := inst.SOPClassUID
    ProtocolName := inst.ProtocolName
    Modality := inst.Modality }

/-- Lookup in an insertion-ordered association list (a JS object keyed by
series UID). -/
def lookupAssoc {α : Type} (l : List (String × α)) (k : String) : Option α :=
  (l.find? fun p => p.1 = k).map Prod.snd

/-- Append an element to the list stored under key `k`. -/
def appendAt {α : Type} (l : List (String × List α)) (k : String) (a : α) :
    List (String × List α) :=
  l.map fun p => if p.1 = k then (p.1, p.2 ++ [a]) else p

/-- Accumulator of the `forEach` over naturalized instances in the eager
strategy: the two insertion-ordered objects plus the provider-registration
events issued so far. -/
structure SyncAcc where
  seriesSummaryMetadata : List (String × SeriesSummary)
  instancesPerSeries : List (String × List NaturalizedInstance)
  events : List Event
deriving Repr, DecidableEq

/-- One iteration of the eager `forEach` (lines 330-362): ensure the
summary and per-series bucket exist, compute and assign the image id,
register it with the metadata provider, and push the instance onto its
series bucket. -/
def syncStep (cfg : Config) (StudyInstanceUID : String) (acc : SyncAcc)
    (inst : NaturalizedInstance) : SyncAcc :=
  let summaries :=
    if (lookupAssoc acc.seriesSummaryMetadata inst.SeriesInstanceUID).isSome then
      acc.seriesSummaryMetadata
    else
      acc.seriesSummaryMetadata ++ [(inst.SeriesInstanceUID, summaryOfInstance inst)]
  let perSeries :=
    if (lookupAssoc acc.instancesPerSeries inst.SeriesInstanceUID).isSome then
      acc.instancesPerSeries
    else
      acc.instancesPerSeries ++ [(inst.SeriesInstanceUID, [])]
  let imageId := getImageId cfg inst.SOPInstanceUID none
  let inst := { inst with imageId := some imageId }
  { seriesSummaryMetadata := summaries
    instancesPerSeries := appendAt perSeries inst.SeriesInstanceUID inst
    events := acc.events ++
      [Event.addImageIdToUIDsEvt imageId
        { StudyInstanceUID := StudyInstanceUID
          SeriesInstanceUID := inst.SeriesInstanceUID
          SOPInstanceUID := inst.SOPInstanceUID }] }

/-- `_retrieveSeriesMetadataSync` (lines 303-374). `syncResult` is the
outcome of the awaited `retrieveStudyMetadata` transport call: a rejection
rethrows with nothing committed; a fulfilment is naturalized, grouped, and
committed (`addSeriesMetadata`, then one `addInstances` per series key). -/
def retrieveSeriesMetadataSync {W : Type} (naturalizeDataset : W → NaturalizedInstance)
    (cfg : Config) (wado : Client) (syncResult : Except String (List W))
    (StudyInstanceUID : String) (madeInClient : Bool) :
    List Event × Except String Unit :=
  let fetchEvt := Event.retrieveStudyMetadataEvt wado.headers StudyInstanceUID false
  match syncResult with
  | .error e => ([fetchEvt], .error e)
  | .ok data =>
    let naturalizedInstancesMetadata := data.map naturalizeDataset
    let acc := naturalizedInstancesMetadata.foldl (syncStep cfg StudyInstanceUID)
      { seriesSummaryMetadata := [], instancesPerSeries := [], events := [] }
    let seriesMetadata := acc.seriesSummaryMetadata.map Prod.snd
    (fetchEvt :: acc.events
      ++ [Event.addSeriesMetadataEvt seriesMetadata madeInClient]
      ++ acc.instancesPerSeries.map (fun p => Event.addInstancesEvt p.2 madeInClient),
      .ok ())

/-!
### Lazy (asynchronous) strategy (`_retrieveSeriesMetadataAsync`, lines 376-488)

`retrieveStudyMetadata` delivers `preLoadData` (lightweight series
summaries) plus one promise per series. The summaries are stamped with the
requested `StudyInstanceUID` and committed at once; each series promise
that fulfils has its instances stored (`storeInstances`); a rejected
promise stores nothing. `Promise.allSettled` waits for every promise to
reach a terminal state, then `setSuccessFlag` writes
`study.isLoaded = true`.
-/

/-- `storeInstances` (lines 438-463): naturalize with bulk-data accessors
attached, assign each instance its image id, register the id with the
metadata provider, and commit the whole series batch with one
`addInstances` call. -/
def storeInstances {W : Type} (naturalizeDataset : W → NaturalizedInstance)
    (cfg : Config) (StudyInstanceUID : String) (madeInClient : Bool)
    (instances : List W) : List Event :=
  let naturalizedInstances := instances.map (addRetrieveBulkData naturalizeDataset)
  let withIds := naturalizedInstances.map fun inst =>
    let imageId := getImageId cfg inst.SOPInstanceUID none
    ({ inst with imageId := some imageId },
      Event.addImageIdToUIDsEvt imageId
        { StudyInstanceUID := StudyInstanceUID
          SeriesInstanceUID := inst.SeriesInstanceUID
          SOPInstanceUID := inst.SOPInstanceUID })
  withIds.map Prod.snd ++ [Event.addInstancesEvt (withIds.map Prod.fst) madeInClient]

/-- `_retrieveSeriesMetadataAsync` (lines 376-488). `asyncPreLoad` is the
`preLoadData` of the study-level listing; `asyncPromises` is the list of
per-series promise outcomes in settlement order. The summaries are stamped
with the requested study UID and committed first; fulfilled promises store
their instances as they settle; after all promises are settled
(`Promise.allSettled`), `setSuccessFlag` marks the study loaded. -/
def retrieveSeriesMetadataAsync {W : Type} (naturalizeDataset : W → NaturalizedInstance)
    (cfg : Config) (wado : Client) (asyncPreLoad : List SeriesSummary)
    (asyncPromises : List (Except String (List W)))
    (StudyInstanceUID : String) (madeInClient : Bool) :
    List Event × Except String Unit :=
  let fetchEvt := Event.retrieveStudyMetadataEvt wado.headers StudyInstanceUID true
  let seriesSummaryMetadata := asyncPreLoad.map fun aSeries =>
    { aSeries with StudyInstanceUID := some StudyInstanceUID }
  let seriesDelivered := (asyncPromises.map fun promise =>
    match promise with
    | .ok instances =>
      storeInstances naturalizeDataset cfg StudyInstanceUID madeInClient instances
    | .error _ => []).flatten
  (fetchEvt :: Event.addSeriesMetadataEvt seriesSummaryMetadata madeInClient
      :: seriesDelivered ++ [Event.setLoadedEvt StudyInstanceUID],
    .ok ())

/-!
### Entry point (`retrieve.series.metadata`, lines 230-268)

The entry refreshes the WADO client's headers, then throws a configuration
error when `StudyInstanceUID` is absent — before any transport call — and
otherwise dispatches on `config.enableStudyLazyLoad`.
-/

/-- Error taxonomy of the retrieval entry point. -/
inductive RetrieveError where
  | configurationError
  | transportError (e : String)
deriving Repr, DecidableEq

/-- The transport environment of one retrieval: what the
`retrieveStudyMetadata` collaborator would deliver on the eager path and
on the lazy path. -/
structure FetchEnv (W : Type) where
  syncResult : Except String (List W)
  asyncPreLoad : List SeriesSummary
  asyncPromises : List (Except String (List W))

/-- `retrieve.series.metadata` (lines 230-268): refresh the WADO headers,
fail with a configuration error when the study UID is absent (before any
transport call), otherwise dispatch to the lazy or eager strategy. -/
def seriesMetadataRetrieve {W : Type} (naturalizeDataset : W → NaturalizedInstance)
    (cfg : Config) (providerHeaders : Option Headers) (wado : Client)
    (env : FetchEnv W) (StudyInstanceUID : Option String) (madeInClient : Bool) :
    Client × List Event × Except RetrieveError Unit :=
  let wado := applyAuthHeaders providerHeaders wado
  match StudyInstanceUID with
  | none => (wado, [], .error .configurationError)
  | some uid =>
    if cfg.enableStudyLazyLoad then
      let r := retrieveSeriesMetadataAsync naturalizeDataset cfg wado
        env.asyncPreLoad env.asyncPromises uid madeInClient
      (wado, r.1, r.2.mapError RetrieveError.transportError)
    else
      let r := retrieveSeriesMetadataSync naturalizeDataset cfg wado
        env.syncResult uid madeInClient
      (wado, r.1, r.2.mapError RetrieveError.transportError)

/-!
### Image-identifier synthesis over a display set
(`getImageIdsForDisplaySet`, lines 507-545)
-/

/-- JS `NumberOfFrames > 1` where `NumberOfFrames` may be `undefined`
(`undefined > 1` is `false`). -/
def jsGtOne : Option Nat → Bool
  | none => false
  | some n => 1 < n

/-- The object returned by a caller-supplied `multiFrameImagesMapper`. -/
structure FrameRange where
  startIndex : Int
  endIndex : Int
deriving Repr, DecidableEq

/-- A display set as consumed by `getImageIdsForDisplaySet`: its `images`
array (possibly absent) and its `multiFrameImagesMapper` attribute
(absent, or a function returning a fixed range — modelled by the range it
returns). -/
structure DisplaySet where
  images : Option (List NaturalizedInstance)
  multiFrameImagesMapper : Option FrameRange
deriving Repr, DecidableEq

/-- The frames visited by `for (let frame = startIndex; frame <= endIndex;
frame++)`. -/
def frameList (startIndex endIndex : Int) : List Int :=
  (List.range (endIndex + 1 - startIndex).toNat).map fun i : Nat =>
    startIndex + (i : Int)

/-- The body of the `forEach` over `displaySet.images` (lines 515-542):
default range `[1, NumberOfFrames]`, overridden by the mapper when
present; one identifier per frame when `NumberOfFrames > 1`, otherwise a
single identifier with no frame qualifier. -/
def imageIdsForOneInstance (cfg : Config) (multiFrameImagesMapper : Option FrameRange)
    (inst : NaturalizedInstance) : List ImageId :=
  let NumberOfFrames := inst.NumberOfFrames
  let startIndex : Int :=
    match multiFrameImagesMapper with
    | some mapper => mapper.startIndex
    | none => 1
  let endIndex : Int :=
    match multiFrameImagesMapper with
    | some mapper => mapper.endIndex
    | none => Int.ofNat (NumberOfFrames.getD 0)
  if jsGtOne NumberOfFrames then
    (frameList startIndex endIndex).map fun frame =>
      getImageId cfg inst.SOPInstanceUID (some frame)
  else
    [getImageId cfg inst.SOPInstanceUID none]

/-- `getImageIdsForDisplaySet` (lines 507-545). -/
def getImageIdsForDisplaySet (cfg : Config) (displaySet : DisplaySet) :
    List ImageId :=
  match displaySet.images with
  | none => []
  | some images =>
    (images.map (imageIdsForOneInstance cfg displaySet.multiFrameImagesMapper)).flatten

/-!
### Statement helpers
-/

/-- Insert a key at the end unless already present — how a JS object
populated by `if (!obj[k]) obj[k] = ...` grows its key list. -/
def insKey (ks : List String) (k : String) : List String :=
  if k ∈ ks then ks else ks ++ [k]

/-- First-occurrence-ordered deduplication of a key list — the key order
of a JS object populated by `if (!obj[k]) obj[k] = ...`. -/
def dedupKeys (l : List String) : List String :=
  l.foldl insKey []

/-- The keys of an insertion-ordered association list. -/
def assocKeys {α : Type} (l : List (String × α)) : List String :=
  l.map Prod.fst

/-- All values stored across the buckets of a keyed bucket list. -/
def bucketMembers {α : Type} (l : List (String × List α)) : List α :=
  (l.map Prod.snd).flatten

/-- The record as committed on the eager path: the instance with its image
identifier assigned. -/
def processedSync (cfg : Config) (inst : NaturalizedInstance) : NaturalizedInstance :=
  { inst with imageId := some (getImageId cfg inst.SOPInstanceUID none) }

/-- The metadata-provider registration event the eager path issues for an
instance. -/
def syncRegEvt (cfg : Config) (StudyInstanceUID : String)
    (inst : NaturalizedInstance) : Event :=
  Event.addImageIdToUIDsEvt (getImageId cfg inst.SOPInstanceUID none)
    { StudyInstanceUID := StudyInstanceUID
      SeriesInstanceUID := inst.SeriesInstanceUID
      SOPInstanceUID := inst.SOPInstanceUID }

/-- Registration discipline of a trace, checked left to right: every
instance record committed by an `addInstances` event must carry an
assigned image id that an earlier `addImageIdToUIDs` event registered with
the metadata provider. -/
def wellRegisteredFrom (reg : List ImageId) : List Event → Bool
  | [] => true
  | Event.addImageIdToUIDsEvt imageId _ :: rest =>
    wellRegisteredFrom (reg ++ [imageId]) rest
  | Event.addInstancesEvt l _ :: rest =>
    (l.all fun inst =>
      match inst.imageId with
      | some imageId => decide (imageId ∈ reg)
      | none => false) && wellRegisteredFrom reg rest
  | _ :: rest => wellRegisteredFrom reg rest

/-- Registration discipline of a whole trace. -/
def wellRegistered (tr : List Event) : Bool := wellRegisteredFrom [] tr

/-- The image ids registered by the `addImageIdToUIDs` events of a
trace. -/
def regIdsOf (tr : List Event) : List ImageId :=
  tr.filterMap fun e =>
    match e with
    | .addImageIdToUIDsEvt imageId _ => some imageId
    | _ => none

/-- The instance batch a fulfilled series promise commits on the lazy
path: naturalized with bulk accessors attached, image id assigned. -/
def lazyProcessedBatch {W : Type} (naturalizeDataset : W → NaturalizedInstance)
    (cfg : Config) (instances : List W) : List NaturalizedInstance :=
  (instances.map (addRetrieveBulkData naturalizeDataset)).map fun inst =>
    { inst with imageId := some (getImageId cfg inst.SOPInstanceUID none) }

/-!
### Trace lemmas for the lazy strategy
-/

theorem storeInstances_eq {W : Type} (naturalizeDataset : W → NaturalizedInstance)
    (cfg : Config) (uid : String) (madeInClient : Bool) (instances : List W) :
    storeInstances naturalizeDataset cfg uid madeInClient instances =
      (lazyProcessedBatch naturalizeDataset cfg instances).map
        (fun inst => Event.addImageIdToUIDsEvt (getImageId cfg inst.SOPInstanceUID none)
          { StudyInstanceUID := uid
            SeriesInstanceUID := inst.SeriesInstanceUID
            SOPInstanceUID := inst.SOPInstanceUID })
      ++ [Event.addInstancesEvt (lazyProcessedBatch naturalizeDataset cfg instances) madeInClient] := by
  simp only [storeInstances, lazyProcessedBatch, List.map_map]
  rfl

theorem committedSummaryBatches_append (a b : List Event) :
    committedSummaryBatches (a ++ b) =
      committedSummaryBatches a ++ committedSummaryBatches b := by
  simp [committedSummaryBatches]

theorem committedInstanceBatches_append (a b : List Event) :
    committedInstanceBatches (a ++ b) =
      committedInstanceBatches a ++ committedInstanceBatches b := by
  simp [committedInstanceBatches]

theorem committedSummaryBatches_storeInstances {W : Type}
    (naturalizeDataset : W → NaturalizedInstance) (cfg : Config) (uid : String)
    (madeInClient : Bool) (instances : List W) :
    committedSummaryBatches
      (storeInstances naturalizeDataset cfg uid madeInClient instances) = [] := by
  rw [storeInstances_eq, committedSummaryBatches_append]
  have h1 : committedSummaryBatches
      ((lazyProcessedBatch naturalizeDataset cfg instances).map
        (fun inst => Event.addImageIdToUIDsEvt (getImageId cfg inst.SOPInstanceUID none)
          { StudyInstanceUID := uid
            SeriesInstanceUID := inst.SeriesInstanceUID
            SOPInstanceUID := inst.SOPInstanceUID })) = [] := by
    simp only [committedSummaryBatches, List.filterMap_map]
    apply List.filterMap_eq_nil_iff.mpr
    intro inst _
    rfl
  rw [h1]
  rfl

theorem committedInstanceBatches_storeInstances {W : Type}
    (naturalizeDataset : W → NaturalizedInstance) (cfg : Config) (uid : String)
    (madeInClient : Bool) (instances : List W) :
    committedInstanceBatches
      (storeInstances naturalizeDataset cfg uid madeInClient instances) =
      [lazyProcessedBatch naturalizeDataset cfg instances] := by
  rw [storeInstances_eq, committedInstanceBatches_append]
  have h1 : committedInstanceBatches
      ((lazyProcessedBatch naturalizeDataset cfg instances).map
        (fun inst => Event.addImageIdToUIDsEvt (getImageId cfg inst.SOPInstanceUID none)
          { StudyInstanceUID := uid
            SeriesInstanceUID := inst.SeriesInstanceUID
            SOPInstanceUID := inst.SOPInstanceUID })) = [] := by
    simp only [committedInstanceBatches, List.filterMap_map]
    apply List.filterMap_eq_nil_iff.mpr
    intro inst _
    rfl
  rw [h1]
  rfl

/-- The flattened per-series blocks of the lazy strategy commit no series
summaries. -/
theorem committedSummaryBatches_blocks {W : Type}
    (naturalizeDataset : W → NaturalizedInstance) (cfg : Config) (uid : String)
    (madeInClient : Bool) (ps : List (Except String (List W))) :
    committedSummaryBatches ((ps.map fun promise =>
      match promise with
      | .ok instances => storeInstances naturalizeDataset cfg uid madeInClient instances
      | .error _ => []).flatten) = [] := by
  induction ps with
  | nil => rfl
  | cons p rest ih =>
    simp only [List.map_cons, List.flatten_cons, committedSummaryBatches_append, ih]
    cases p with
    | ok instances => simp [committedSummaryBatches_storeInstances]
    | error e => rfl

/-- The flattened per-series blocks commit exactly one instance batch per
fulfilled promise, in settlement order. -/
theorem committedInstanceBatches_blocks {W : Type}
    (naturalizeDataset : W → NaturalizedInstance) (cfg : Config) (uid : String)
    (madeInClient : Bool) (ps : List (Except String (List W))) :
    committedInstanceBatches ((ps.map fun promise =>
      match promise with
      | .ok instances => storeInstances naturalizeDataset cfg uid madeInClient instances
      | .error _ => []).flatten) =
      (ps.filterMap Except.toOption).map (lazyProcessedBatch naturalizeDataset cfg) := by
  induction ps with
  | nil => rfl
  | cons p rest ih =>
    simp only [List.map_cons, List.flatten_cons, committedInstanceBatches_append, ih]
    cases p with
    | ok instances =>
      simp [committedInstanceBatches_storeInstances, Except.toOption]
    | error e =>
      simp [Except.toOption, committedInstanceBatches]

/-- No event of a per-series block is the `isLoaded` write. -/
theorem setLoaded_not_in_blocks {W : Type}
    (naturalizeDataset : W → NaturalizedInstance) (cfg : Config) (uid uid' : String)
    (madeInClient : Bool) (ps : List (Except String (List W))) :
    Event.setLoadedEvt uid' ∉ ((ps.map fun promise =>
      match promise with
      | .ok instances => storeInstances naturalizeDataset cfg uid madeInClient instances
      | .error _ => []).flatten) := by
  intro hmem
  rw [List.mem_flatten] at hmem
  obtain ⟨block, hblock, hin⟩ := hmem
  rw [List.mem_map] at hblock
  obtain ⟨p, _, rfl⟩ := hblock
  cases p with
  | ok instances =>
    dsimp only at hin
    rw [storeInstances_eq, List.mem_append] at hin
    cases hin with
    | inl h =>
      rw [List.mem_map] at h
      obtain ⟨inst, _, h⟩ := h
      exact Event.noConfusion h
    | inr h =>
      rw [List.mem_singleton] at h
      exact Event.noConfusion h
  | error e =>
    dsimp only at hin
    exact (List.not_mem_nil _ hin)

/-- Shape of the lazy-strategy trace: listing call, stamped-summary
commit, the per-series blocks in settlement order, and finally the
`isLoaded` write. -/
theorem lazy_trace_eq {W : Type} (naturalizeDataset : W → NaturalizedInstance)
    (cfg : Config) (wado : Client) (asyncPreLoad : List SeriesSummary)
    (asyncPromises : List (Except String (List W))) (uid : String)
    (madeInClient : Bool) :
    (retrieveSeriesMetadataAsync naturalizeDataset cfg wado asyncPreLoad
        asyncPromises uid madeInClient).1 =
      (Event.retrieveStudyMetadataEvt wado.headers uid true
        :: Event.addSeriesMetadataEvt
            (asyncPreLoad.map fun aSeries => { aSeries with StudyInstanceUID := some uid })
            madeInClient
        :: (asyncPromises.map fun promise =>
              match promise with
              | .ok instances =>
                storeInstances naturalizeDataset cfg uid madeInClient instances
              | .error _ => []).flatten)
      ++ [Event.setLoadedEvt uid] := rfl

/-!
### Claim theorems
-/

/-- C2: under the lazy strategy the study is marked loaded (the
`isLoaded = true` write) only after every per-series unit of work has
reached a terminal state — it is the last event of the trace and occurs
nowhere earlier — and this happens regardless of how many series failed
(the run always completes with `.ok`); the committed instance batches are
exactly those of the fulfilled promises, in settlement order, so a failed
series is never committed and does not prevent sibling series from being
committed. -/
theorem lazy_marks_loaded_after_barrier_failures_isolated {W : Type}
    (naturalizeDataset : W → NaturalizedInstance) (cfg : Config) (wado : Client)
    (asyncPreLoad : List SeriesSummary) (asyncPromises : List (Except String (List W)))
    (uid : String) (madeInClient : Bool) :
    ((retrieveSeriesMetadataAsync naturalizeDataset cfg wado asyncPreLoad
        asyncPromises uid madeInClient).1.getLast? = some (Event.setLoadedEvt uid)) ∧
    Event.setLoadedEvt uid ∉
      (retrieveSeriesMetadataAsync naturalizeDataset cfg wado asyncPreLoad
        asyncPromises uid madeInClient).1.dropLast ∧
    committedInstanceBatches
        (retrieveSeriesMetadataAsync naturalizeDataset cfg wado asyncPreLoad
          asyncPromises uid madeInClient).1 =
      (asyncPromises.filterMap Except.toOption).map
        (lazyProcessedBatch naturalizeDataset cfg) ∧
    (retrieveSeriesMetadataAsync naturalizeDataset cfg wado asyncPreLoad
        asyncPromises uid madeInClient).2 = .ok () := by
  rw [lazy_trace_eq]
  refine ⟨List.getLast?_concat _, ?_, ?_, rfl⟩
  · rw [List.dropLast_concat]
    intro hmem
    rcases List.mem_cons.mp hmem with h | hmem
    · exact Event.noConfusion h
    rcases List.mem_cons.mp hmem with h | hmem
    · exact Event.noConfusion h
    exact setLoaded_not_in_blocks naturalizeDataset cfg uid uid madeInClient
      asyncPromises hmem
  · rw [committedInstanceBatches_append]
    have h2 : committedInstanceBatches [Event.setLoadedEvt uid] = [] := rfl
    rw [h2, List.append_nil]
    show committedInstanceBatches (_ :: _ :: _) = _
    simp only [committedInstanceBatches, List.filterMap_cons]
    exact committedInstanceBatches_blocks naturalizeDataset cfg uid madeInClient
      asyncPromises

/-- C8: under the lazy strategy the stamped series summaries from the
single study-level listing call are committed before any per-series
instance commit (they form the second trace event, right after the listing
call, ahead of every block and of the barrier), the summary commit happens
exactly once, and each fulfilled series is committed with one
`addInstances` call of its own, in settlement order. -/
theorem lazy_summaries_committed_before_instances {W : Type}
    (naturalizeDataset : W → NaturalizedInstance) (cfg : Config) (wado : Client)
    (asyncPreLoad : List SeriesSummary) (asyncPromises : List (Except String (List W)))
    (uid : String) (madeInClient : Bool) :
    (∃ rest,
      (retrieveSeriesMetadataAsync naturalizeDataset cfg wado asyncPreLoad
          asyncPromises uid madeInClient).1 =
        Event.retrieveStudyMetadataEvt wado.headers uid true
          :: Event.addSeriesMetadataEvt
              (asyncPreLoad.map fun aSeries => { aSeries with StudyInstanceUID := some uid })
              madeInClient
          :: rest) ∧
    committedSummaryBatches
        (retrieveSeriesMetadataAsync naturalizeDataset cfg wado asyncPreLoad
          asyncPromises uid madeInClient).1 =
      [asyncPreLoad.map fun aSeries => { aSeries with StudyInstanceUID := some uid }] ∧
    committedInstanceBatches
        (retrieveSeriesMetadataAsync naturalizeDataset cfg wado asyncPreLoad
          asyncPromises uid madeInClient).1 =
      (asyncPromises.filterMap Except.toOption).map
        (lazyProcessedBatch naturalizeDataset cfg) := by
  refine ⟨⟨_, rfl⟩, ?_, ?_⟩
  · rw [lazy_trace_eq, committedSummaryBatches_append]
    have h2 : committedSummaryBatches [Event.setLoadedEvt uid] = [] := rfl
    rw [h2, List.append_nil]
    show committedSummaryBatches (_ :: _ :: _) = _
    simp only [committedSummaryBatches, List.filterMap_cons]
    have hb := committedSummaryBatches_blocks naturalizeDataset cfg uid madeInClient
      asyncPromises
    simp only [committedSummaryBatches] at hb
    rw [hb]
  · rw [lazy_trace_eq, committedInstanceBatches_append]
    have h2 : committedInstanceBatches [Event.setLoadedEvt uid] = [] := rfl
    rw [h2, List.append_nil]
    show committedInstanceBatches (_ :: _ :: _) = _
    simp only [committedInstanceBatches, List.filterMap_cons]
    exact committedInstanceBatches_blocks naturalizeDataset cfg uid madeInClient
      asyncPromises

/-- C9: under the lazy strategy every series summary is stamped with the
requested study's StudyInstanceUID before being committed — the one
committed summary batch is exactly the wire listing with every record's
StudyInstanceUID overwritten by the requested UID, so every committed
summary carries it. -/
theorem lazy_summaries_stamped_with_requested_uid {W : Type}
    (naturalizeDataset : W → NaturalizedInstance) (cfg : Config) (wado : Client)
    (asyncPreLoad : List SeriesSummary) (asyncPromises : List (Except String (List W)))
    (uid : String) (madeInClient : Bool) :
    committedSummaryBatches
        (retrieveSeriesMetadataAsync naturalizeDataset cfg wado asyncPreLoad
          asyncPromises uid madeInClient).1 =
      [asyncPreLoad.map fun aSeries => { aSeries with StudyInstanceUID := some uid }] ∧
    ∀ s ∈ (committedSummaryBatches
        (retrieveSeriesMetadataAsync naturalizeDataset cfg wado asyncPreLoad
          asyncPromises uid madeInClient).1).flatten,
      s.StudyInstanceUID = some uid := by
  have hbatches := (lazy_summaries_committed_before_instances naturalizeDataset cfg
    wado asyncPreLoad asyncPromises uid madeInClient).2.1
  refine ⟨hbatches, ?_⟩
  rw [hbatches]
  intro s hs
  simp only [List.flatten, List.append_nil, List.mem_map] at hs
  obtain ⟨a, _, rfl⟩ := hs
  rfl

/-- C9 witness: at a concrete lazy run the committed summary batch is the
stamped listing and a concrete committed summary carries the requested
study UID. -/
theorem lazy_summaries_stamped_with_requested_uid_wit :
    committedSummaryBatches
        (retrieveSeriesMetadataAsync (W := NaturalizedInstance) id
          { enableStudyLazyLoad := true, wadoRoot := "/wado" }
          { headers := some "token" }
          [{ StudyInstanceUID := none, SeriesInstanceUID := "S1" }] []
          "1.2.3" false).1 =
      [[{ StudyInstanceUID := some "1.2.3", SeriesInstanceUID := "S1" }]] ∧
    ({ StudyInstanceUID := some "1.2.3", SeriesInstanceUID := "S1" } :
      SeriesSummary).StudyInstanceUID = some "1.2.3" := by
  refine ⟨?_, ?_⟩
  · exact (lazy_summaries_stamped_with_requested_uid (W := NaturalizedInstance) id
      { enableStudyLazyLoad := true, wadoRoot := "/wado" }
      { headers := some "token" }
      [{ StudyInstanceUID := none, SeriesInstanceUID := "S1" }] []
      "1.2.3" false).1
  · exact (lazy_summaries_stamped_with_requested_uid (W := NaturalizedInstance) id
      { enableStudyLazyLoad := true, wadoRoot := "/wado" }
      { headers := some "token" }
      [{ StudyInstanceUID := none, SeriesInstanceUID := "S1" }] []
      "1.2.3" false).2
      { StudyInstanceUID := some "1.2.3", SeriesInstanceUID := "S1" } (by decide)

/-- C10: `query.instances.search` issues the underlying QIDO search but
its body has no return statement, so for every input the operation
evaluates to `undefined` (`none`): no caller can observe instance search
results through it. -/
theorem query_instances_search_returns_undefined
    (providerHeaders : Option Headers) (qido : Client)
    (studyInstanceUid : String) (queryParameters : Option String) :
    (queryInstancesSearch providerHeaders qido studyInstanceUid queryParameters).2.2
        = none ∧
    (queryInstancesSearch providerHeaders qido studyInstanceUid queryParameters).2.1
        = [Event.qidoSearchEvt (applyAuthHeaders providerHeaders qido).headers
            (some studyInstanceUid) queryParameters] := ⟨rfl, rfl⟩

/-- C5: series-metadata retrieval with an absent StudyInstanceUID fails
with the configuration error and an empty trace — no search, retrieve or
bulk-data call is issued — while with the UID present the configuration
error is never raised. -/
theorem missing_study_uid_fails_before_io {W : Type}
    (naturalizeDataset : W → NaturalizedInstance) (cfg : Config)
    (providerHeaders : Option Headers) (wado : Client) (env : FetchEnv W)
    (StudyInstanceUID : Option String) (madeInClient : Bool) :
    (StudyInstanceUID = none →
      (seriesMetadataRetrieve naturalizeDataset cfg providerHeaders wado env
          StudyInstanceUID madeInClient).2.2 =
        Except.error RetrieveError.configurationError ∧
      (seriesMetadataRetrieve naturalizeDataset cfg providerHeaders wado env
          StudyInstanceUID madeInClient).2.1.filter Event.isTransport = []) ∧
    (∀ uid, StudyInstanceUID = some uid →
      (seriesMetadataRetrieve naturalizeDataset cfg providerHeaders wado env
          StudyInstanceUID madeInClient).2.2 ≠
        Except.error RetrieveError.configurationError) := by
  constructor
  · rintro rfl
    exact ⟨rfl, rfl⟩
  · rintro uid rfl
    cases hcfg : cfg.enableStudyLazyLoad with
    | true =>
      simp [seriesMetadataRetrieve, hcfg, retrieveSeriesMetadataAsync,
        Except.mapError]
    | false =>
      cases hres : env.syncResult with
      | error e =>
        simp [seriesMetadataRetrieve, hcfg, retrieveSeriesMetadataSync, hres,
          Except.mapError]
      | ok data =>
        simp [seriesMetadataRetrieve, hcfg, retrieveSeriesMetadataSync, hres,
          Except.mapError]

/-- C5 witness: a concrete run without the study UID fails with the
configuration error and issues no transport call, and a concrete run with
the UID present raises no configuration error. -/
theorem missing_study_uid_fails_before_io_wit :
    ((seriesMetadataRetrieve (W := NaturalizedInstance) id
        { enableStudyLazyLoad := false, wadoRoot := "/wado" } (some "token")
        { headers := none }
        { syncResult := Except.ok [], asyncPreLoad := [], asyncPromises := [] }
        none false).2.2 = Except.error RetrieveError.configurationError ∧
      (seriesMetadataRetrieve (W := NaturalizedInstance) id
        { enableStudyLazyLoad := false, wadoRoot := "/wado" } (some "token")
        { headers := none }
        { syncResult := Except.ok [], asyncPreLoad := [], asyncPromises := [] }
        none false).2.1.filter Event.isTransport = []) ∧
    (seriesMetadataRetrieve (W := NaturalizedInstance) id
        { enableStudyLazyLoad := false, wadoRoot := "/wado" } (some "token")
        { headers := none }
        { syncResult := Except.ok [], asyncPreLoad := [], asyncPromises := [] }
        (some "1.2.3") false).2.2 ≠
      Except.error RetrieveError.configurationError :=
  ⟨(missing_study_uid_fails_before_io (W := NaturalizedInstance) id
      { enableStudyLazyLoad := false, wadoRoot := "/wado" } (some "token")
      { headers := none }
      { syncResult := Except.ok [], asyncPreLoad := [], asyncPromises := [] }
      none false).1 rfl,
    (missing_study_uid_fails_before_io (W := NaturalizedInstance) id
      { enableStudyLazyLoad := false, wadoRoot := "/wado" } (some "token")
      { headers := none }
      { syncResult := Except.ok [], asyncPreLoad := [], asyncPromises := [] }
      (some "1.2.3") false).2 "1.2.3" rfl⟩

/-- C1 counterexample: for an attribute value carrying a bulk-data
reference and no inline value, invoking the attached deferred accessor
twice (the second time after the first has resolved) issues two underlying
retrieveBulkData calls, refuting "at most one underlying retrieve call in
total". -/
theorem bulk_second_invocation_refetches_cex :
    ¬ (bulkCallCount (invokeRetrieveBulkDataTwice (fun _ => ["payload"])
        { headers := some "token" } (some "1.2.3")
        { BulkDataURI := some "http://bulk/uri", Value := none }).2.2.2 ≤ 1) := by
  decide

/-- C1 (amended): each invocation of the attached accessor issues exactly
one underlying retrieveBulkData call — two sequential invocations issue
two calls in total, not at most one — and each invocation stores the first
element of the transport response on the attribute record and returns it,
so with the same response both invocations return the identical value,
which is also the value left cached on the record. -/
theorem bulk_accessor_each_invocation_issues_call
    (server : BulkCallOptions → List String) (qido : Client)
    (suid : Option String) (value : AttrVal) (uri : String)
    (huri : value.BulkDataURI = some uri) (_hval : value.Value = none) :
    bulkCallCount (invokeRetrieveBulkDataTwice server qido suid value).2.2.2 = 2 ∧
    (invokeRetrieveBulkDataTwice server qido suid value).2.1 =
      jsFirstOrUndefined (server
        { multipart := false, BulkDataURI := uri, StudyInstanceUID := suid }) ∧
    (invokeRetrieveBulkDataTwice server qido suid value).2.2.1 =
      (invokeRetrieveBulkDataTwice server qido suid value).2.1 ∧
    (invokeRetrieveBulkDataTwice server qido suid value).1.Value =
      (invokeRetrieveBulkDataTwice server qido suid value).2.1 := by
  simp [invokeRetrieveBulkDataTwice, invokeRetrieveBulkData, bulkCallCount,
    bulkCallHeaders, huri]

/-- C1 amended witness at a concrete attribute value and server. -/
theorem bulk_accessor_each_invocation_issues_call_wit :
    bulkCallCount (invokeRetrieveBulkDataTwice (fun _ => ["payload"])
        { headers := some "token" } (some "1.2.3")
        { BulkDataURI := some "http://bulk/uri", Value := none }).2.2.2 = 2 ∧
    (invokeRetrieveBulkDataTwice (fun _ => ["payload"])
        { headers := some "token" } (some "1.2.3")
        { BulkDataURI := some "http://bulk/uri", Value := none }).2.1 =
      jsFirstOrUndefined ((fun (_ : BulkCallOptions) => ["payload"])
        { multipart := false, BulkDataURI := "http://bulk/uri",
          StudyInstanceUID := some "1.2.3" }) ∧
    (invokeRetrieveBulkDataTwice (fun _ => ["payload"])
        { headers := some "token" } (some "1.2.3")
        { BulkDataURI := some "http://bulk/uri", Value := none }).2.2.1 =
      (invokeRetrieveBulkDataTwice (fun _ => ["payload"])
        { headers := some "token" } (some "1.2.3")
        { BulkDataURI := some "http://bulk/uri", Value := none }).2.1 ∧
    (invokeRetrieveBulkDataTwice (fun _ => ["payload"])
        { headers := some "token" } (some "1.2.3")
        { BulkDataURI := some "http://bulk/uri", Value := none }).1.Value =
      (invokeRetrieveBulkDataTwice (fun _ => ["payload"])
        { headers := some "token" } (some "1.2.3")
        { BulkDataURI := some "http://bulk/uri", Value := none }).2.1 :=
  bulk_accessor_each_invocation_issues_call (fun _ => ["payload"])
    { headers := some "token" } (some "1.2.3")
    { BulkDataURI := some "http://bulk/uri", Value := none } "http://bulk/uri" rfl rfl

/-- C7 counterexample: the deferred bulk-data resolution call does not
re-read the authorization header at call time — with the provider
currently returning the refreshed header and the client still holding the
stale one, the code's deferred call differs from the header-refreshing
call the claim describes: it is issued with the stale headers. -/
theorem deferred_bulk_ignores_header_refresh_cex :
    (invokeRetrieveBulkData (fun _ => ["payload"]) { headers := some "stale" }
        (some "1.2.3") { BulkDataURI := some "http://bulk/uri", Value := none }).2.2
      ≠ (invokeRetrieveBulkDataSpecRefreshed (some "fresh") (fun _ => ["payload"])
        { headers := some "stale" } (some "1.2.3")
        { BulkDataURI := some "http://bulk/uri", Value := none }).2.2 := by
  decide

/-- C7 (amended): every query operation, the series-metadata retrieve and
the store operation re-read the authorization header from the provider at
call time and apply it to the transport client before issuing the call —
a provider refresh to `h` is observable on the very next call without
reconstructing the adapter — but the deferred bulk-data resolution call
does not consult the provider: it is issued with whatever headers its
client currently holds. -/
theorem headers_refreshed_per_call_except_deferred_bulk {W : Type}
    (naturalizeDataset : W → NaturalizedInstance) (cfg : Config)
    (h : Headers) (qido wado : Client) (mappedParams queryParameters : Option String)
    (uid : String) (env : FetchEnv W) (madeInClient : Bool)
    (server : BulkCallOptions → List String) (suid : Option String)
    (value : AttrVal) :
    (queryStudiesSearch (some h) qido mappedParams).2 =
      [Event.qidoSearchEvt (some h) none mappedParams] ∧
    (querySeriesSearch (some h) qido uid).2 =
      [Event.qidoSearchEvt (some h) (some uid) none] ∧
    (queryInstancesSearch (some h) qido uid queryParameters).2.1 =
      [Event.qidoSearchEvt (some h) (some uid) queryParameters] ∧
    (storeDicom (some h) wado).2 = [Event.storeInstancesEvt (some h)] ∧
    (seriesMetadataRetrieve naturalizeDataset cfg (some h) wado env (some uid)
        madeInClient).2.1.head? =
      some (Event.retrieveStudyMetadataEvt (some h) uid cfg.enableStudyLazyLoad) ∧
    bulkCallHeaders (invokeRetrieveBulkData server qido suid value).2.2 =
      [qido.headers] := by
  refine ⟨rfl, rfl, rfl, rfl, ?_, rfl⟩
  cases hcfg : cfg.enableStudyLazyLoad with
  | true =>
    simp [seriesMetadataRetrieve, hcfg, retrieveSeriesMetadataAsync, applyAuthHeaders]
  | false =>
    cases hres : env.syncResult with
    | error e =>
      simp [seriesMetadataRetrieve, hcfg, retrieveSeriesMetadataSync, hres,
        applyAuthHeaders]
    | ok data =>
      simp [seriesMetadataRetrieve, hcfg, retrieveSeriesMetadataSync, hres,
        applyAuthHeaders]

/-!
### Frame-range lemmas and the image-identifier claim
-/

theorem frameList_length (s e : Int) :
    (frameList s e).length = (e + 1 - s).toNat := by
  unfold frameList
  rw [List.length_map, List.length_range]

theorem mem_frameList (s e f : Int) : f ∈ frameList s e ↔ s ≤ f ∧ f ≤ e := by
  simp only [frameList, List.mem_map, List.mem_range]
  constructor
  · rintro ⟨i, hi, rfl⟩
    omega
  · rintro ⟨h1, h2⟩
    exact ⟨(f - s).toNat, by omega, by omega⟩

theorem frameList_pairwise (s e : Int) : (frameList s e).Pairwise (· < ·) :=
  List.Pairwise.map _ (fun _ _ hab => by omega) (List.pairwise_lt_range _)

/-- C4: image-identifier synthesis over a display set concatenates the
per-instance syntheses; a frame-count-1 instance yields exactly one
identifier with no frame qualifier (whether or not a mapper is present); a
multi-frame instance with no custom range mapper yields exactly
NumberOfFrames identifiers in ascending frame order over the inclusive
default range [1, NumberOfFrames]; and with a caller-supplied mapper
returning `startIndex = s, endIndex = e` it yields exactly (e - s + 1)
identifiers over the inclusive range [s, e], the mapper taking precedence
over the default. -/
theorem image_id_synthesis_counts (cfg : Config) :
    (∀ images mapper,
      getImageIdsForDisplaySet cfg
          { images := some images, multiFrameImagesMapper := mapper } =
        (images.map (imageIdsForOneInstance cfg mapper)).flatten) ∧
    (∀ inst mapper, inst.NumberOfFrames = some 1 →
      imageIdsForOneInstance cfg mapper inst =
        [getImageId cfg inst.SOPInstanceUID none]) ∧
    (∀ inst (n : Nat), inst.NumberOfFrames = some n → 1 < n →
      imageIdsForOneInstance cfg none inst =
        (frameList 1 (n : Int)).map
          (fun frame => getImageId cfg inst.SOPInstanceUID (some frame)) ∧
      (imageIdsForOneInstance cfg none inst).length = n ∧
      (frameList 1 (n : Int)).Pairwise (· < ·) ∧
      (∀ f, f ∈ frameList 1 (n : Int) ↔ 1 ≤ f ∧ f ≤ (n : Int))) ∧
    (∀ inst (n : Nat) (s e : Int), inst.NumberOfFrames = some n → 1 < n → s ≤ e →
      imageIdsForOneInstance cfg (some { startIndex := s, endIndex := e }) inst =
        (frameList s e).map
          (fun frame => getImageId cfg inst.SOPInstanceUID (some frame)) ∧
      (imageIdsForOneInstance cfg
        (some { startIndex := s, endIndex := e }) inst).length =
        (e - s + 1).toNat ∧
      (frameList s e).Pairwise (· < ·) ∧
      (∀ f, f ∈ frameList s e ↔ s ≤ f ∧ f ≤ e)) := by
  refine ⟨fun images mapper => rfl, ?_, ?_, ?_⟩
  · intro inst mapper h
    simp [imageIdsForOneInstance, h, jsGtOne]
  · intro inst n h hn
    have hframes : imageIdsForOneInstance cfg none inst =
        (frameList 1 (n : Int)).map
          (fun frame => getImageId cfg inst.SOPInstanceUID (some frame)) := by
      simp [imageIdsForOneInstance, h, jsGtOne, hn, Int.ofNat_eq_coe]
    refine ⟨hframes, ?_, frameList_pairwise _ _, fun f => mem_frameList _ _ f⟩
    rw [hframes, List.length_map, frameList_length]
    omega
  · intro inst n s e h hn hse
    have hframes : imageIdsForOneInstance cfg
        (some { startIndex := s, endIndex := e }) inst =
        (frameList s e).map
          (fun frame => getImageId cfg inst.SOPInstanceUID (some frame)) := by
      simp [imageIdsForOneInstance, h, jsGtOne, hn]
    refine ⟨hframes, ?_, frameList_pairwise _ _, fun f => mem_frameList _ _ f⟩
    rw [hframes, List.length_map, frameList_length]
    omega

/-- C4 witness: a single-frame instance yields exactly one frameless
identifier, a 10-frame instance with no mapper yields 10 identifiers, and
the same instance with a mapper returning [3, 5] yields 3 identifiers. -/
theorem image_id_synthesis_counts_wit :
    imageIdsForOneInstance { enableStudyLazyLoad := false, wadoRoot := "/wado" } none
        { StudyInstanceUID := none, SeriesInstanceUID := "S1",
          SOPInstanceUID := "SOP1", NumberOfFrames := some 1 } =
      [getImageId { enableStudyLazyLoad := false, wadoRoot := "/wado" } "SOP1" none] ∧
    (imageIdsForOneInstance { enableStudyLazyLoad := false, wadoRoot := "/wado" } none
        { StudyInstanceUID := none, SeriesInstanceUID := "S1",
          SOPInstanceUID := "SOP2", NumberOfFrames := some 10 }).length = 10 ∧
    (imageIdsForOneInstance { enableStudyLazyLoad := false, wadoRoot := "/wado" }
        (some { startIndex := 3, endIndex := 5 })
        { StudyInstanceUID := none, SeriesInstanceUID := "S1",
          SOPInstanceUID := "SOP2", NumberOfFrames := some 10 }).length =
      ((5 : Int) - 3 + 1).toNat :=
  ⟨(image_id_synthesis_counts
      { enableStudyLazyLoad := false, wadoRoot := "/wado" }).2.1
      { StudyInstanceUID := none, SeriesInstanceUID := "S1",
        SOPInstanceUID := "SOP1", NumberOfFrames := some 1 } none rfl,
    ((image_id_synthesis_counts
      { enableStudyLazyLoad := false, wadoRoot := "/wado" }).2.2.1
      { StudyInstanceUID := none, SeriesInstanceUID := "S1",
        SOPInstanceUID := "SOP2", NumberOfFrames := some 10 } 10 rfl
      (by decide)).2.1,
    ((image_id_synthesis_counts
      { enableStudyLazyLoad := false, wadoRoot := "/wado" }).2.2.2
      { StudyInstanceUID := none, SeriesInstanceUID := "S1",
        SOPInstanceUID := "SOP2", NumberOfFrames := some 10 } 10 3 5 rfl
      (by decide) (by decide)).2.1⟩

/-!
### Association-list lemmas for the eager strategy
-/

theorem lookupAssoc_isSome_iff {α : Type} (l : List (String × α)) (k : String) :
    (lookupAssoc l k).isSome = true ↔ k ∈ assocKeys l := by
  induction l with
  | nil => simp [lookupAssoc, assocKeys]
  | cons p rest ih =>
    by_cases h : p.1 = k
    · simp [lookupAssoc, assocKeys, List.find?_cons, h]
    · rw [lookupAssoc] at ih ⊢
      rw [List.find?_cons_of_neg _ (by simp [h])]
      simp only [assocKeys, List.map_cons, List.mem_cons] at ih ⊢
      rw [ih]
      constructor
      · exact Or.inr
      · rintro (hk | hk)
        · exact absurd hk.symm h
        · exact hk

theorem assocKeys_appendAt {α : Type} (l : List (String × List α)) (k : String)
    (a : α) : assocKeys (appendAt l k a) = assocKeys l := by
  induction l with
  | nil => rfl
  | cons p rest ih =>
    by_cases h : p.1 = k
    · simp only [appendAt, List.map_cons, assocKeys] at ih ⊢
      simp [h, ih]
    · simp only [appendAt, List.map_cons, assocKeys] at ih ⊢
      simp [h, ih]

theorem appendAt_of_not_mem {α : Type} {l : List (String × List α)} {k : String}
    (a : α) (h : k ∉ assocKeys l) : appendAt l k a = l := by
  induction l with
  | nil => rfl
  | cons p rest ih =>
    simp only [assocKeys, List.map_cons, List.mem_cons, not_or] at h
    have hp : ¬ p.1 = k := fun hc => h.1 hc.symm
    show (if p.1 = k then (p.1, p.2 ++ [a]) else p) :: appendAt rest k a = p :: rest
    rw [if_neg hp, ih h.2]

theorem bucketMembers_nil {α : Type} : bucketMembers ([] : List (String × List α)) = [] :=
  rfl

theorem bucketMembers_cons {α : Type} (p : String × List α) (rest : List (String × List α)) :
    bucketMembers (p :: rest) = p.2 ++ bucketMembers rest := by
  simp [bucketMembers]

theorem bucketMembers_append {α : Type} (l₁ l₂ : List (String × List α)) :
    bucketMembers (l₁ ++ l₂) = bucketMembers l₁ ++ bucketMembers l₂ := by
  simp [bucketMembers]

theorem length_bucketMembers_appendAt {α : Type} {l : List (String × List α)}
    {k : String} (hnd : (assocKeys l).Nodup) (hk : k ∈ assocKeys l) (a : α) :
    (bucketMembers (appendAt l k a)).length = (bucketMembers l).length + 1 := by
  induction l with
  | nil => simp [assocKeys] at hk
  | cons p rest ih =>
    simp only [assocKeys, List.map_cons, List.nodup_cons, List.mem_cons] at hnd hk
    by_cases h : p.1 = k
    · have hrest : k ∉ assocKeys rest := by
        rw [← h]; exact hnd.1
      show (bucketMembers ((if p.1 = k then (p.1, p.2 ++ [a]) else p)
        :: appendAt rest k a)).length = _
      rw [if_pos h, appendAt_of_not_mem a hrest, bucketMembers_cons,
        bucketMembers_cons]
      simp
      omega
    · have hkrest : k ∈ assocKeys rest := by
        rcases hk with hk | hk
        · exact absurd hk.symm h
        · exact hk
      show (bucketMembers ((if p.1 = k then (p.1, p.2 ++ [a]) else p)
        :: appendAt rest k a)).length = _
      rw [if_neg h, bucketMembers_cons, bucketMembers_cons]
      simp only [List.length_append]
      rw [ih hnd.2 hkrest]
      omega

theorem mem_bucketMembers_appendAt {α : Type} {l : List (String × List α)}
    {k : String} {a x : α}
    (h : x ∈ bucketMembers (appendAt l k a)) :
    x ∈ bucketMembers l ∨ x = a := by
  induction l with
  | nil => simp [bucketMembers, appendAt] at h
  | cons p rest ih =>
    rw [show appendAt (p :: rest) k a =
      (if p.1 = k then (p.1, p.2 ++ [a]) else p) :: appendAt rest k a from rfl,
      bucketMembers_cons] at h
    rw [bucketMembers_cons]
    rcases List.mem_append.mp h with h | h
    · by_cases hp : p.1 = k
      · rw [if_pos hp] at h
        rcases List.mem_append.mp h with h | h
        · exact Or.inl (List.mem_append.mpr (Or.inl h))
        · exact Or.inr (List.mem_singleton.mp h)
      · rw [if_neg hp] at h
        exact Or.inl (List.mem_append.mpr (Or.inl h))
    · rcases ih h with h | h
      · exact Or.inl (List.mem_append.mpr (Or.inr h))
      · exact Or.inr h

theorem foldl_insKey_nodup (l : List String) (ks : List String) (h : ks.Nodup) :
    (l.foldl insKey ks).Nodup := by
  induction l generalizing ks with
  | nil => exact h
  | cons a rest ih =>
    rw [List.foldl_cons]
    apply ih
    by_cases ha : a ∈ ks
    · simpa [insKey, ha]
    · rw [insKey, if_neg ha]
      exact List.nodup_append.mpr ⟨h, List.nodup_singleton a, by simp [ha]⟩

theorem mem_foldl_insKey (l : List String) (ks : List String) (a : String) :
    a ∈ l.foldl insKey ks ↔ a ∈ ks ∨ a ∈ l := by
  induction l generalizing ks with
  | nil => simp
  | cons b rest ih =>
    rw [List.foldl_cons, ih]
    by_cases hb : b ∈ ks
    · rw [insKey, if_pos hb]
      constructor
      · rintro (h | h)
        · exact Or.inl h
        · exact Or.inr (List.mem_cons_of_mem _ h)
      · rintro (h | h)
        · exact Or.inl h
        · rcases List.mem_cons.mp h with rfl | h
          · exact Or.inl hb
          · exact Or.inr h
    · rw [insKey, if_neg hb]
      simp only [List.mem_append, List.mem_cons, List.not_mem_nil, or_false,
        List.mem_singleton]
      constructor
      · rintro ((h | rfl) | h)
        · exact Or.inl h
        · exact Or.inr (Or.inl rfl)
        · exact Or.inr (Or.inr h)
      · rintro (h | (rfl | h))
        · exact Or.inl (Or.inl h)
        · exact Or.inl (Or.inr rfl)
        · exact Or.inr h

theorem dedupKeys_nodup (l : List String) : (dedupKeys l).Nodup :=
  foldl_insKey_nodup l [] List.nodup_nil

theorem mem_dedupKeys (l : List String) (a : String) :
    a ∈ dedupKeys l ↔ a ∈ l := by
  rw [dedupKeys, mem_foldl_insKey]
  simp

/-!
### Characterization of the eager `forEach` fold
-/

theorem syncStep_events (cfg : Config) (uid : String) (acc : SyncAcc)
    (inst : NaturalizedInstance) :
    (syncStep cfg uid acc inst).events = acc.events ++ [syncRegEvt cfg uid inst] :=
  rfl

theorem syncStep_summaries (cfg : Config) (uid : String) (acc : SyncAcc)
    (inst : NaturalizedInstance) :
    (syncStep cfg uid acc inst).seriesSummaryMetadata =
      if (lookupAssoc acc.seriesSummaryMetadata inst.SeriesInstanceUID).isSome then
        acc.seriesSummaryMetadata
      else
        acc.seriesSummaryMetadata ++
          [(inst.SeriesInstanceUID, summaryOfInstance inst)] :=
  rfl

theorem syncStep_perSeries (cfg : Config) (uid : String) (acc : SyncAcc)
    (inst : NaturalizedInstance) :
    (syncStep cfg uid acc inst).instancesPerSeries =
      appendAt
        (if (lookupAssoc acc.instancesPerSeries inst.SeriesInstanceUID).isSome then
          acc.instancesPerSeries
        else
          acc.instancesPerSeries ++ [(inst.SeriesInstanceUID, [])])
        inst.SeriesInstanceUID (processedSync cfg inst) :=
  rfl

theorem syncFold_events (cfg : Config) (uid : String)
    (data : List NaturalizedInstance) (acc : SyncAcc) :
    (data.foldl (syncStep cfg uid) acc).events =
      acc.events ++ data.map (syncRegEvt cfg uid) := by
  induction data generalizing acc with
  | nil => simp
  | cons i rest ih =>
    rw [List.foldl_cons, ih, syncStep_events]
    simp

theorem syncFold_summary_keys (cfg : Config) (uid : String)
    (data : List NaturalizedInstance) (acc : SyncAcc) :
    assocKeys (data.foldl (syncStep cfg uid) acc).seriesSummaryMetadata =
      (data.map (fun i => i.SeriesInstanceUID)).foldl insKey
        (assocKeys acc.seriesSummaryMetadata) := by
  induction data generalizing acc with
  | nil => simp
  | cons i rest ih =>
    rw [List.foldl_cons, ih, List.map_cons, List.foldl_cons]
    congr 1
    rw [syncStep_summaries]
    by_cases h : i.SeriesInstanceUID ∈ assocKeys acc.seriesSummaryMetadata
    · rw [if_pos ((lookupAssoc_isSome_iff _ _).mpr h), insKey, if_pos h]
    · rw [if_neg (fun hc => h ((lookupAssoc_isSome_iff _ _).mp hc)),
        insKey, if_neg h]
      simp [assocKeys]

theorem syncFold_summary_vals (cfg : Config) (uid : String)
    (data : List NaturalizedInstance) (acc : SyncAcc)
    (hacc : ∀ p ∈ acc.seriesSummaryMetadata,
      (p.2 : SeriesSummary).SeriesInstanceUID = p.1) :
    ∀ p ∈ (data.foldl (syncStep cfg uid) acc).seriesSummaryMetadata,
      (p.2 : SeriesSummary).SeriesInstanceUID = p.1 := by
  induction data generalizing acc with
  | nil => exact hacc
  | cons i rest ih =>
    rw [List.foldl_cons]
    apply ih
    intro p hp
    rw [syncStep_summaries] at hp
    by_cases h : (lookupAssoc acc.seriesSummaryMetadata i.SeriesInstanceUID).isSome
    · rw [if_pos h] at hp
      exact hacc p hp
    · rw [if_neg h] at hp
      rcases List.mem_append.mp hp with hp | hp
      · exact hacc p hp
      · rw [List.mem_singleton] at hp
        subst hp
        rfl

theorem syncFold_perSeries_props (cfg : Config) (uid : String)
    (data : List NaturalizedInstance) (acc : SyncAcc)
    (hnd : (assocKeys acc.instancesPerSeries).Nodup) :
    (assocKeys (data.foldl (syncStep cfg uid) acc).instancesPerSeries).Nodup ∧
    (bucketMembers (data.foldl (syncStep cfg uid) acc).instancesPerSeries).length =
      (bucketMembers acc.instancesPerSeries).length + data.length ∧
    (∀ x ∈ bucketMembers (data.foldl (syncStep cfg uid) acc).instancesPerSeries,
      x ∈ bucketMembers acc.instancesPerSeries ∨
        ∃ j ∈ data, x = processedSync cfg j) := by
  induction data generalizing acc with
  | nil => exact ⟨hnd, by simp, fun x hx => Or.inl hx⟩
  | cons i rest ih =>
    rw [List.foldl_cons]
    set ensured :=
      (if (lookupAssoc acc.instancesPerSeries i.SeriesInstanceUID).isSome then
        acc.instancesPerSeries
      else
        acc.instancesPerSeries ++ [(i.SeriesInstanceUID, [])]) with hens
    have hkeysE : (assocKeys ensured).Nodup ∧ i.SeriesInstanceUID ∈ assocKeys ensured := by
      rw [hens]
      by_cases h : i.SeriesInstanceUID ∈ assocKeys acc.instancesPerSeries
      · rw [if_pos ((lookupAssoc_isSome_iff _ _).mpr h)]
        exact ⟨hnd, h⟩
      · rw [if_neg (fun hc => h ((lookupAssoc_isSome_iff _ _).mp hc))]
        constructor
        · rw [show assocKeys (acc.instancesPerSeries ++ [(i.SeriesInstanceUID, [])]) =
            assocKeys acc.instancesPerSeries ++ [i.SeriesInstanceUID] by
              simp [assocKeys]]
          exact List.nodup_append.mpr
            ⟨hnd, List.nodup_singleton _, by rw [List.disjoint_singleton]; exact h⟩
        · simp [assocKeys]
    have hbmE : bucketMembers ensured = bucketMembers acc.instancesPerSeries := by
      rw [hens]
      by_cases h : (lookupAssoc acc.instancesPerSeries i.SeriesInstanceUID).isSome
      · rw [if_pos h]
      · rw [if_neg h, bucketMembers_append]
        simp [bucketMembers]
    have hstep : (syncStep cfg uid acc i).instancesPerSeries =
        appendAt ensured i.SeriesInstanceUID (processedSync cfg i) := by
      rw [syncStep_perSeries, hens]
    have hndStep : (assocKeys (syncStep cfg uid acc i).instancesPerSeries).Nodup := by
      rw [hstep, assocKeys_appendAt]
      exact hkeysE.1
    obtain ⟨ihnd, ihlen, ihmem⟩ := ih (syncStep cfg uid acc i) hndStep
    refine ⟨ihnd, ?_, ?_⟩
    · rw [ihlen, hstep,
        length_bucketMembers_appendAt hkeysE.1 hkeysE.2 (processedSync cfg i), hbmE]
      simp
      omega
    · intro x hx
      rcases ihmem x hx with hx | ⟨j, hj, hxj⟩
      · rw [hstep] at hx
        rcases mem_bucketMembers_appendAt hx with hx | hx
        · rw [hbmE] at hx
          exact Or.inl hx
        · exact Or.inr ⟨i, List.mem_cons_self _ _, hx⟩
      · exact Or.inr ⟨j, List.mem_cons_of_mem _ hj, hxj⟩

/-!
### Trace lemmas for the eager strategy
-/

theorem committedSummaryBatches_regEvts (cfg : Config) (uid : String)
    (l : List NaturalizedInstance) :
    committedSummaryBatches (l.map (syncRegEvt cfg uid)) = [] := by
  simp only [committedSummaryBatches, List.filterMap_map]
  exact List.filterMap_eq_nil_iff.mpr fun a _ => rfl

theorem committedInstanceBatches_regEvts (cfg : Config) (uid : String)
    (l : List NaturalizedInstance) :
    committedInstanceBatches (l.map (syncRegEvt cfg uid)) = [] := by
  simp only [committedInstanceBatches, List.filterMap_map]
  exact List.filterMap_eq_nil_iff.mpr fun a _ => rfl

theorem committedSummaryBatches_batchEvts (mic : Bool)
    (l : List (String × List NaturalizedInstance)) :
    committedSummaryBatches (l.map fun p => Event.addInstancesEvt p.2 mic) = [] := by
  simp only [committedSummaryBatches, List.filterMap_map]
  exact List.filterMap_eq_nil_iff.mpr fun a _ => rfl

theorem committedInstanceBatches_batchEvts (mic : Bool)
    (l : List (String × List NaturalizedInstance)) :
    committedInstanceBatches (l.map fun p => Event.addInstancesEvt p.2 mic) =
      l.map Prod.snd := by
  simp only [committedInstanceBatches, List.filterMap_map]
  induction l with
  | nil => rfl
  | cons p rest ih => simp [List.filterMap_cons, ih]

/-- Shape of the eager-strategy trace on a fulfilled listing: listing
call, the per-instance provider registrations in arrival order, the
single summary commit, and one instance commit per series key. -/
theorem sync_trace_eq {W : Type} (naturalizeDataset : W → NaturalizedInstance)
    (cfg : Config) (wado : Client) (data : List W) (uid : String) (mic : Bool) :
    (retrieveSeriesMetadataSync naturalizeDataset cfg wado (Except.ok data) uid mic).1 =
      Event.retrieveStudyMetadataEvt wado.headers uid false
        :: ((data.map naturalizeDataset).map (syncRegEvt cfg uid)
          ++ [Event.addSeriesMetadataEvt
                (((data.map naturalizeDataset).foldl (syncStep cfg uid)
                    { seriesSummaryMetadata := [], instancesPerSeries := [],
                      events := [] }).seriesSummaryMetadata.map Prod.snd) mic]
          ++ ((data.map naturalizeDataset).foldl (syncStep cfg uid)
                { seriesSummaryMetadata := [], instancesPerSeries := [],
                  events := [] }).instancesPerSeries.map
              (fun p => Event.addInstancesEvt p.2 mic)) := by
  show Event.retrieveStudyMetadataEvt wado.headers uid false
    :: (((data.map naturalizeDataset).foldl (syncStep cfg uid)
          { seriesSummaryMetadata := [], instancesPerSeries := [],
            events := [] }).events ++ _ ++ _) = _
  rw [syncFold_events]
  rfl

/-- The eager strategy commits exactly one summary batch (the grouped
summaries) and one instance batch per series key. -/
theorem sync_trace_committed {W : Type} (naturalizeDataset : W → NaturalizedInstance)
    (cfg : Config) (wado : Client) (data : List W) (uid : String) (mic : Bool) :
    committedSummaryBatches
        (retrieveSeriesMetadataSync naturalizeDataset cfg wado (Except.ok data)
          uid mic).1 =
      [((data.map naturalizeDataset).foldl (syncStep cfg uid)
          { seriesSummaryMetadata := [], instancesPerSeries := [],
            events := [] }).seriesSummaryMetadata.map Prod.snd] ∧
    committedInstanceBatches
        (retrieveSeriesMetadataSync naturalizeDataset cfg wado (Except.ok data)
          uid mic).1 =
      ((data.map naturalizeDataset).foldl (syncStep cfg uid)
          { seriesSummaryMetadata := [], instancesPerSeries := [],
            events := [] }).instancesPerSeries.map Prod.snd := by
  rw [sync_trace_eq]
  constructor
  · show committedSummaryBatches (_ :: _) = _
    simp only [committedSummaryBatches, List.filterMap_cons]
    have h1 := committedSummaryBatches_regEvts cfg uid (data.map naturalizeDataset)
    have h2 := committedSummaryBatches_batchEvts mic
      (((data.map naturalizeDataset).foldl (syncStep cfg uid)
        { seriesSummaryMetadata := [], instancesPerSeries := [],
          events := [] }).instancesPerSeries)
    simp only [committedSummaryBatches] at h1 h2
    rw [List.filterMap_append, List.filterMap_append, h1, h2]
    rfl
  · show committedInstanceBatches (_ :: _) = _
    simp only [committedInstanceBatches, List.filterMap_cons]
    have h1 := committedInstanceBatches_regEvts cfg uid (data.map naturalizeDataset)
    have h2 := committedInstanceBatches_batchEvts mic
      (((data.map naturalizeDataset).foldl (syncStep cfg uid)
        { seriesSummaryMetadata := [], instancesPerSeries := [],
          events := [] }).instancesPerSeries)
    simp only [committedInstanceBatches] at h1 h2
    rw [List.filterMap_append, List.filterMap_append, h1, h2]
    rfl

/-- The series identifiers of the committed summaries are the
first-occurrence-ordered distinct series identifiers of the naturalized
instances. -/
theorem syncFold_summary_uid_list (cfg : Config) (uid : String)
    (naturalized : List NaturalizedInstance) :
    ((naturalized.foldl (syncStep cfg uid)
        { seriesSummaryMetadata := [], instancesPerSeries := [],
          events := [] }).seriesSummaryMetadata.map Prod.snd).map
      (fun s => s.SeriesInstanceUID) =
    dedupKeys (naturalized.map (fun i => i.SeriesInstanceUID)) := by
  have hvals := syncFold_summary_vals cfg uid naturalized
    { seriesSummaryMetadata := [], instancesPerSeries := [], events := [] }
    (by intro p hp; cases hp)
  rw [List.map_map]
  have hmap : List.map ((fun s : SeriesSummary => s.SeriesInstanceUID) ∘ Prod.snd)
      (naturalized.foldl (syncStep cfg uid)
        { seriesSummaryMetadata := [], instancesPerSeries := [],
          events := [] }).seriesSummaryMetadata =
      assocKeys (naturalized.foldl (syncStep cfg uid)
        { seriesSummaryMetadata := [], instancesPerSeries := [],
          events := [] }).seriesSummaryMetadata :=
    List.map_congr_left (fun p hp => hvals p hp)
  rw [hmap, syncFold_summary_keys]
  rfl

/-- C3: eager retrieval is all-or-nothing: when the study-level fetch
fails the whole operation fails with that error and the trace commits no
summary batch and no instance batch at all; when it succeeds the run
returns successfully having committed exactly one summary batch holding
exactly one summary per distinct series identifier (in first-occurrence
order, without duplicates, covering exactly the series identifiers of the
retrieved instances) plus every retrieved instance. -/
theorem eager_all_or_nothing {W : Type} (naturalizeDataset : W → NaturalizedInstance)
    (cfg : Config) (wado : Client) (syncResult : Except String (List W))
    (uid : String) (mic : Bool) :
    (∀ e, syncResult = Except.error e →
      (retrieveSeriesMetadataSync naturalizeDataset cfg wado syncResult uid mic).2 =
        Except.error e ∧
      committedSummaryBatches
        (retrieveSeriesMetadataSync naturalizeDataset cfg wado syncResult uid mic).1
        = [] ∧
      committedInstanceBatches
        (retrieveSeriesMetadataSync naturalizeDataset cfg wado syncResult uid mic).1
        = []) ∧
    (∀ data, syncResult = Except.ok data →
      (retrieveSeriesMetadataSync naturalizeDataset cfg wado syncResult uid mic).2 =
        Except.ok () ∧
      ∃ summaries,
        committedSummaryBatches
          (retrieveSeriesMetadataSync naturalizeDataset cfg wado syncResult uid mic).1
          = [summaries] ∧
        summaries.map (fun s => s.SeriesInstanceUID) =
          dedupKeys ((data.map naturalizeDataset).map
            (fun i => i.SeriesInstanceUID)) ∧
        (summaries.map (fun s => s.SeriesInstanceUID)).Nodup ∧
        (∀ k, k ∈ summaries.map (fun s => s.SeriesInstanceUID) ↔
          k ∈ (data.map naturalizeDataset).map (fun i => i.SeriesInstanceUID)) ∧
        (committedInstances
          (retrieveSeriesMetadataSync naturalizeDataset cfg wado syncResult uid
            mic).1).length = data.length) := by
  constructor
  · rintro e rfl
    exact ⟨rfl, rfl, rfl⟩
  · rintro data rfl
    refine ⟨rfl, ?_⟩
    obtain ⟨hsum, hinst⟩ :=
      sync_trace_committed naturalizeDataset cfg wado data uid mic
    refine ⟨_, hsum, ?_, ?_, ?_, ?_⟩
    · exact syncFold_summary_uid_list cfg uid (data.map naturalizeDataset)
    · rw [syncFold_summary_uid_list cfg uid (data.map naturalizeDataset)]
      exact dedupKeys_nodup _
    · intro k
      rw [syncFold_summary_uid_list cfg uid (data.map naturalizeDataset)]
      exact mem_dedupKeys _ k
    · -- every retrieved instance is committed
      rw [committedInstances, hinst]
      have hlen := (syncFold_perSeries_props cfg uid (data.map naturalizeDataset)
        { seriesSummaryMetadata := [], instancesPerSeries := [], events := [] }
        List.nodup_nil).2.1
      rw [show (((data.map naturalizeDataset).foldl (syncStep cfg uid)
          { seriesSummaryMetadata := [], instancesPerSeries := [],
            events := [] }).instancesPerSeries.map Prod.snd).flatten =
          bucketMembers ((data.map naturalizeDataset).foldl (syncStep cfg uid)
            { seriesSummaryMetadata := [], instancesPerSeries := [],
              events := [] }).instancesPerSeries from rfl, hlen]
      simp [bucketMembers]

/-- C3 witness: a concrete two-series study — on success one summary per
distinct series identifier and all three instances are committed; with the
fetch failing the operation fails and commits nothing. -/
theorem eager_all_or_nothing_wit :
    ((retrieveSeriesMetadataSync (W := NaturalizedInstance) id
        { enableStudyLazyLoad := false, wadoRoot := "/wado" }
        { headers := some "token" } (Except.error "network down") "1.2.3" false).2 =
      Except.error "network down" ∧
      committedSummaryBatches
        (retrieveSeriesMetadataSync (W := NaturalizedInstance) id
          { enableStudyLazyLoad := false, wadoRoot := "/wado" }
          { headers := some "token" } (Except.error "network down") "1.2.3"
          false).1 = [] ∧
      committedInstanceBatches
        (retrieveSeriesMetadataSync (W := NaturalizedInstance) id
          { enableStudyLazyLoad := false, wadoRoot := "/wado" }
          { headers := some "token" } (Except.error "network down") "1.2.3"
          false).1 = []) ∧
    (committedInstances
      (retrieveSeriesMetadataSync (W := NaturalizedInstance) id
        { enableStudyLazyLoad := false, wadoRoot := "/wado" }
        { headers := some "token" }
        (Except.ok
          [{ StudyInstanceUID := some "1.2.3", SeriesInstanceUID := "S1",
             SOPInstanceUID := "I1" },
           { StudyInstanceUID := some "1.2.3", SeriesInstanceUID := "S1",
             SOPInstanceUID := "I2" },
           { StudyInstanceUID := some "1.2.3", SeriesInstanceUID := "S2",
             SOPInstanceUID := "I3" }]) "1.2.3" false).1).length = 3 :=
  ⟨(eager_all_or_nothing (W := NaturalizedInstance) id
      { enableStudyLazyLoad := false, wadoRoot := "/wado" }
      { headers := some "token" } (Except.error "network down") "1.2.3" false).1
      "network down" rfl,
    (((eager_all_or_nothing (W := NaturalizedInstance) id
      { enableStudyLazyLoad := false, wadoRoot := "/wado" }
      { headers := some "token" }
      (Except.ok
        [{ StudyInstanceUID := some "1.2.3", SeriesInstanceUID := "S1",
           SOPInstanceUID := "I1" },
         { StudyInstanceUID := some "1.2.3", SeriesInstanceUID := "S1",
           SOPInstanceUID := "I2" },
         { StudyInstanceUID := some "1.2.3", SeriesInstanceUID := "S2",
           SOPInstanceUID := "I3" }]) "1.2.3" false).2
      [{ StudyInstanceUID := some "1.2.3", SeriesInstanceUID := "S1",
         SOPInstanceUID := "I1" },
       { StudyInstanceUID := some "1.2.3", SeriesInstanceUID := "S1",
         SOPInstanceUID := "I2" },
       { StudyInstanceUID := some "1.2.3", SeriesInstanceUID := "S2",
         SOPInstanceUID := "I3" }] rfl).2.choose_spec.2.2.2.2)⟩

/-!
### Registration-discipline lemmas (claim C6)
-/

theorem wellRegisteredFrom_append (a b : List Event) (reg : List ImageId) :
    wellRegisteredFrom reg (a ++ b) =
      (wellRegisteredFrom reg a && wellRegisteredFrom (reg ++ regIdsOf a) b) := by
  induction a generalizing reg with
  | nil => simp [wellRegisteredFrom, regIdsOf]
  | cons e rest ih =>
    cases e <;>
      simp [wellRegisteredFrom, regIdsOf, List.filterMap_cons, ih,
        List.append_assoc, Bool.and_assoc]

theorem wellRegisteredFrom_lazyRegEvts (cfg : Config) (uid : String)
    (batch : List NaturalizedInstance) (reg : List ImageId) :
    wellRegisteredFrom reg (batch.map (fun inst =>
      Event.addImageIdToUIDsEvt (getImageId cfg inst.SOPInstanceUID none)
        { StudyInstanceUID := uid
          SeriesInstanceUID := inst.SeriesInstanceUID
          SOPInstanceUID := inst.SOPInstanceUID })) = true := by
  induction batch generalizing reg with
  | nil => rfl
  | cons i rest ih =>
    rw [List.map_cons]
    exact ih _

theorem regIdsOf_lazyRegEvts (cfg : Config) (uid : String)
    (batch : List NaturalizedInstance) :
    regIdsOf (batch.map (fun inst =>
      Event.addImageIdToUIDsEvt (getImageId cfg inst.SOPInstanceUID none)
        { StudyInstanceUID := uid
          SeriesInstanceUID := inst.SeriesInstanceUID
          SOPInstanceUID := inst.SOPInstanceUID })) =
      batch.map (fun inst => getImageId cfg inst.SOPInstanceUID none) := by
  induction batch with
  | nil => rfl
  | cons i rest ih =>
    simp only [List.map_cons, regIdsOf, List.filterMap_cons] at ih ⊢
    rw [ih]

theorem regIdsOf_append (a b : List Event) :
    regIdsOf (a ++ b) = regIdsOf a ++ regIdsOf b := by
  simp [regIdsOf]

theorem regIdsOf_syncRegEvts (cfg : Config) (uid : String)
    (batch : List NaturalizedInstance) :
    regIdsOf (batch.map (syncRegEvt cfg uid)) =
      batch.map (fun inst => getImageId cfg inst.SOPInstanceUID none) :=
  regIdsOf_lazyRegEvts cfg uid batch

theorem lazyProcessedBatch_imageId {W : Type}
    (naturalizeDataset : W → NaturalizedInstance) (cfg : Config)
    (instances : List W) :
    ∀ x ∈ lazyProcessedBatch naturalizeDataset cfg instances,
      x.imageId = some (getImageId cfg x.SOPInstanceUID none) := by
  intro x hx
  simp only [lazyProcessedBatch, List.mem_map] at hx
  obtain ⟨y, _, rfl⟩ := hx
  rfl

theorem wellRegisteredFrom_storeInstances {W : Type}
    (naturalizeDataset : W → NaturalizedInstance) (cfg : Config) (uid : String)
    (mic : Bool) (instances : List W) (reg : List ImageId) :
    wellRegisteredFrom reg
      (storeInstances naturalizeDataset cfg uid mic instances) = true := by
  rw [storeInstances_eq, wellRegisteredFrom_append, Bool.and_eq_true]
  refine ⟨wellRegisteredFrom_lazyRegEvts cfg uid _ reg, ?_⟩
  rw [regIdsOf_lazyRegEvts]
  show ((lazyProcessedBatch naturalizeDataset cfg instances).all _ &&
    wellRegisteredFrom _ []) = true
  rw [Bool.and_eq_true]
  refine ⟨List.all_eq_true.mpr ?_, rfl⟩
  intro x hx
  rw [lazyProcessedBatch_imageId naturalizeDataset cfg instances x hx]
  apply decide_eq_true
  apply List.mem_append.mpr
  exact Or.inr (List.mem_map.mpr ⟨x, hx, rfl⟩)

theorem wellRegisteredFrom_blocks {W : Type}
    (naturalizeDataset : W → NaturalizedInstance) (cfg : Config) (uid : String)
    (mic : Bool) (ps : List (Except String (List W))) (reg : List ImageId) :
    wellRegisteredFrom reg
      (((ps.map fun promise =>
          match promise with
          | .ok instances => storeInstances naturalizeDataset cfg uid mic instances
          | .error _ => []).flatten) ++ [Event.setLoadedEvt uid]) = true := by
  induction ps generalizing reg with
  | nil => rfl
  | cons p rest ih =>
    rw [List.map_cons, List.flatten_cons, List.append_assoc,
      wellRegisteredFrom_append, Bool.and_eq_true]
    cases p with
    | ok instances =>
      exact ⟨wellRegisteredFrom_storeInstances naturalizeDataset cfg uid mic
        instances reg, ih _⟩
    | error e => exact ⟨rfl, ih _⟩

theorem wellRegisteredFrom_syncBatchEvts (mic : Bool)
    (l : List (String × List NaturalizedInstance)) (reg : List ImageId)
    (h : ∀ x ∈ bucketMembers l, ∃ id, x.imageId = some id ∧ id ∈ reg) :
    wellRegisteredFrom reg (l.map fun p => Event.addInstancesEvt p.2 mic) = true := by
  induction l with
  | nil => rfl
  | cons p rest ih =>
    rw [List.map_cons]
    show (p.2.all _ && wellRegisteredFrom reg _) = true
    rw [Bool.and_eq_true]
    constructor
    · apply List.all_eq_true.mpr
      intro x hx
      obtain ⟨id, hid, hmem⟩ := h x (by
        rw [bucketMembers_cons]
        exact List.mem_append.mpr (Or.inl hx))
      rw [hid]
      exact decide_eq_true hmem
    · apply ih
      intro x hx
      exact h x (by
        rw [bucketMembers_cons]
        exact List.mem_append.mpr (Or.inr hx))

/-- C6: in both retrieval strategies, every instance record committed by
an `addInstances` call carries an assigned image identifier, and that
identifier was registered with the metadata provider earlier in the trace
than the commit. -/
theorem image_ids_assigned_before_commit {W : Type}
    (naturalizeDataset : W → NaturalizedInstance) (cfg : Config) (wado : Client)
    (syncResult : Except String (List W)) (asyncPreLoad : List SeriesSummary)
    (asyncPromises : List (Except String (List W))) (uid : String) (mic : Bool) :
    wellRegistered (retrieveSeriesMetadataSync naturalizeDataset cfg wado
      syncResult uid mic).1 = true ∧
    wellRegistered (retrieveSeriesMetadataAsync naturalizeDataset cfg wado
      asyncPreLoad asyncPromises uid mic).1 = true := by
  constructor
  · cases syncResult with
    | error e => rfl
    | ok data =>
      rw [sync_trace_eq]
      show wellRegisteredFrom [] (_ ++ _ ++ _) = true
      rw [wellRegisteredFrom_append, wellRegisteredFrom_append,
        Bool.and_eq_true, Bool.and_eq_true]
      refine ⟨⟨wellRegisteredFrom_lazyRegEvts cfg uid _ [], rfl⟩, ?_⟩
      rw [regIdsOf_append, regIdsOf_syncRegEvts,
        show regIdsOf [Event.addSeriesMetadataEvt
            (((data.map naturalizeDataset).foldl (syncStep cfg uid)
              { seriesSummaryMetadata := [], instancesPerSeries := [],
                events := [] }).seriesSummaryMetadata.map Prod.snd) mic] = []
          from rfl, List.append_nil]
      apply wellRegisteredFrom_syncBatchEvts
      intro x hx
      have hmem := ((syncFold_perSeries_props cfg uid (data.map naturalizeDataset)
        { seriesSummaryMetadata := [], instancesPerSeries := [], events := [] }
        List.nodup_nil).2.2) x hx
      rcases hmem with hx0 | ⟨j, hj, rfl⟩
      · cases hx0
      · refine ⟨getImageId cfg j.SOPInstanceUID none, rfl, ?_⟩
        apply List.mem_append.mpr
        apply Or.inr
        exact List.mem_map.mpr ⟨j, hj, rfl⟩
  · rw [lazy_trace_eq]
    show wellRegisteredFrom [] (_ :: _ :: _) = true
    exact wellRegisteredFrom_blocks naturalizeDataset cfg uid mic asyncPromises []

end DicomWebDataSource
